import Mathlib

/-
  Shallow embedding of the carlosealves2/video-ia service-discovery core:
  the domain model (internal/domain), the in-memory repository
  (internal/repository/memory.go), the HTTP handler layer
  (internal/handler/service_handler.go) and the client transport retry loop
  (libs/go-commons/servicediscovery client).

  Modelling conventions:
  - wall-clock time is a Nat passed into each operation (time.Now() reads it);
  - uuid.New().String() is a String passed into Register;
  - the Go map id -> *Service is an association list keyed by id, and map
    lookup is findKey below;
  - a JSON request body is an Option of the bound request struct: none means
    gin ShouldBindJSON failed to parse; a some value is additionally checked
    against the binding validators (required, min, max), mirroring gin;
  - Go nil slices and nil maps are Option.none, so a non-nil empty slice is
    some [] and is distinct from nil, exactly as in Go;
  - the HTTP client transport is a function from attempt index to the result
    of http.Client.Do: an error string or a response.
-/

set_option autoImplicit false

namespace ServiceDiscovery

/-- Embedding of domain.ServiceStatus (healthy or unhealthy). -/
inductive ServiceStatus where
  | healthy
  | unhealthy
deriving DecidableEq, Repr

/-- Embedding of domain.Route. -/
structure Route where
  path : String
  methods : List String
deriving DecidableEq, Repr

/-- Embedding of domain.Service. Timestamps are Nat ticks; routes, tags and
metadata are Option to distinguish Go nil from a non-nil empty collection. -/
structure Service where
  id : String
  name : String
  host : String
  port : Int
  protocol : String
  basePath : String
  routes : Option (List Route)
  healthCheck : String
  tags : Option (List String)
  metadata : Option (List (String × String))
  status : ServiceStatus
  lastHeartbeat : Nat
  registeredAt : Nat
deriving DecidableEq, Repr

/-- Embedding of domain.RegisterServiceRequest. -/
structure RegisterServiceRequest where
  name : String
  host : String
  port : Int
  protocol : String
  basePath : String
  routes : Option (List Route)
  healthCheck : String
  tags : Option (List String)
  metadata : Option (List (String × String))
deriving DecidableEq, Repr

/-- Gin binding validators on RegisterServiceRequest: name and host are
required (non-empty), port is required with min=1 and max=65535. -/
def RegisterServiceRequest.bindOK (r : RegisterServiceRequest) : Bool :=
  r.name != "" && r.host != "" && decide (1 ≤ r.port) && decide (r.port ≤ 65535)

/-- Embedding of domain.UpdateServiceRequest. -/
structure UpdateServiceRequest where
  host : String
  port : Int
  protocol : String
  basePath : String
  routes : Option (List Route)
  healthCheck : String
  tags : Option (List String)
  metadata : Option (List (String × String))
deriving DecidableEq, Repr

/-- Gin binding validators on UpdateServiceRequest: port carries
omitempty,min=1,max=65535, so a zero port skips the range check. -/
def UpdateServiceRequest.bindOK (r : UpdateServiceRequest) : Bool :=
  r.port == 0 || (decide (1 ≤ r.port) && decide (r.port ≤ 65535))

/-- The repository state: the Go map id -> *Service as an association list. -/
abbrev Store := List (String × Service)

/-- Errors of repository/memory.go: ErrServiceNotFound, ErrServiceAlreadyExists. -/
inductive StoreErr where
  | notFound
  | alreadyExists
deriving DecidableEq, Repr

/-- Go map lookup r.services[id] on the association-list model. -/
def findKey : Store → String → Option Service
  | [], _ => none
  | (k, v) :: rest, id => if k = id then some v else findKey rest id

/-- MemoryRepository.Create: error if the id is already present, else insert. -/
def MemoryRepository.Create (s : Store) (svc : Service) : Except StoreErr Store :=
  if (findKey s svc.id).isSome then .error .alreadyExists
  else .ok ((svc.id, svc) :: s)

/-- MemoryRepository.GetByID: the record, or ErrServiceNotFound. -/
def MemoryRepository.GetByID (s : Store) (id : String) : Except StoreErr Service :=
  match findKey s id with
  | some svc => .ok svc
  | none => .error .notFound

/-- MemoryRepository.GetAll: all stored records. -/
def MemoryRepository.GetAll (s : Store) : List Service :=
  s.map Prod.snd

/-- Go map assignment r.services[id] = svc on the association-list model:
every entry keyed id is overwritten. -/
def replaceKey (i : String) (w : Service) : Store → Store
  | [] => []
  | (k, v) :: rest =>
    if k = i then (i, w) :: replaceKey i w rest
    else (k, v) :: replaceKey i w rest

/-- Go map deletion delete(r.services, id) on the association-list model. -/
def removeKey (i : String) : Store → Store
  | [] => []
  | (k, v) :: rest =>
    if k = i then removeKey i rest else (k, v) :: removeKey i rest

/-- MemoryRepository.Update: error if the id is absent, else whole-record
replacement at the record's own id. -/
def MemoryRepository.Update (s : Store) (svc : Service) : Except StoreErr Store :=
  if (findKey s svc.id).isSome then .ok (replaceKey svc.id svc s)
  else .error .notFound

/-- MemoryRepository.Delete: error if the id is absent, else remove it. -/
def MemoryRepository.Delete (s : Store) (id : String) : Except StoreErr Store :=
  if (findKey s id).isSome then .ok (removeKey id s)
  else .error .notFound

/-- MemoryRepository.Exists: boolean presence check. -/
def MemoryRepository.ExistsId (s : Store) (id : String) : Bool :=
  (findKey s id).isSome

/-- The observable handler responses of service_handler.go: an HTTP status
together with the JSON payload shape the handler writes. -/
inductive HResp where
  | badRequest
  | notFound
  | internalError
  | created (svc : Service)
  | okSvc (svc : Service)
  | okMsg
  | okHeartbeat (ts : Nat)
  | okList (services : List Service) (count : Nat)
deriving DecidableEq, Repr

/-- The HTTP status code each handler response is written with. -/
def HResp.code : HResp → Nat
  | .badRequest => 400
  | .notFound => 404
  | .internalError => 500
  | .created _ => 201
  | .okSvc _ => 200
  | .okMsg => 200
  | .okHeartbeat _ => 200
  | .okList _ _ => 200

/-- ServiceHandler.Register: bind and validate the body, default protocol to
http and healthCheck to /health when empty, build the record with a fresh id,
status healthy and lastHeartbeat = registeredAt = now, then repo.Create. -/
def registerHandler (s : Store) (body : Option RegisterServiceRequest)
    (newId : String) (now : Nat) : HResp × Store :=
  match body with
  | none => (.badRequest, s)
  | some req =>
    if req.bindOK then
      let protocol := if req.protocol = "" then "http" else req.protocol
      let healthCheck := if req.healthCheck = "" then "/health" else req.healthCheck
      let svc : Service :=
        { id := newId
          name := req.name
          host := req.host
          port := req.port
          protocol := protocol
          basePath := req.basePath
          routes := req.routes
          healthCheck := healthCheck
          tags := req.tags
          metadata := req.metadata
          status := .healthy
          lastHeartbeat := now
          registeredAt := now }
      match MemoryRepository.Create s svc with
      | .error _ => (.internalError, s)
      | .ok s1 => (.created svc, s1)
    else (.badRequest, s)

/-- ServiceHandler.List. -/
def listHandler (s : Store) : HResp :=
  .okList (MemoryRepository.GetAll s) (MemoryRepository.GetAll s).length

/-- ServiceHandler.Get. -/
def getHandler (s : Store) (id : String) : HResp :=
  match MemoryRepository.GetByID s id with
  | .error _ => .notFound
  | .ok svc => .okSvc svc

/-- The field merge of ServiceHandler.Update: a non-zero request field
overwrites the stored field, a zero-valued one leaves it unchanged. -/
def mergeUpdate (svc : Service) (req : UpdateServiceRequest) : Service :=
  { svc with
    host := if req.host ≠ "" then req.host else svc.host
    port := if req.port ≠ 0 then req.port else svc.port
    protocol := if req.protocol ≠ "" then req.protocol else svc.protocol
    basePath := if req.basePath ≠ "" then req.basePath else svc.basePath
    routes := if req.routes ≠ none then req.routes else svc.routes
    healthCheck := if req.healthCheck ≠ "" then req.healthCheck else svc.healthCheck
    tags := if req.tags ≠ none then req.tags else svc.tags
    metadata := if req.metadata ≠ none then req.metadata else svc.metadata }

/-- ServiceHandler.Update: fetch by id (404 when absent, before the body is
bound), bind and validate the body (400 on failure), merge non-zero fields,
then repo.Update. -/
def updateHandler (s : Store) (id : String)
    (body : Option UpdateServiceRequest) : HResp × Store :=
  match MemoryRepository.GetByID s id with
  | .error _ => (.notFound, s)
  | .ok svc =>
    match body with
    | none => (.badRequest, s)
    | some req =>
      if req.bindOK then
        let merged := mergeUpdate svc req
        match MemoryRepository.Update s merged with
        | .error _ => (.internalError, s)
        | .ok s1 => (.okSvc merged, s1)
      else (.badRequest, s)

/-- ServiceHandler.Unregister: fetch by id (404 when absent), then repo.Delete. -/
def unregisterHandler (s : Store) (id : String) : HResp × Store :=
  match MemoryRepository.GetByID s id with
  | .error _ => (.notFound, s)
  | .ok _ =>
    match MemoryRepository.Delete s id with
    | .error _ => (.internalError, s)
    | .ok s1 => (.okMsg, s1)

/-- ServiceHandler.Heartbeat: fetch by id (404 when absent), set
lastHeartbeat = now and status = healthy, persist via repo.Update, answer
with the new timestamp. -/
def heartbeatHandler (s : Store) (id : String) (now : Nat) : HResp × Store :=
  match MemoryRepository.GetByID s id with
  | .error _ => (.notFound, s)
  | .ok svc =>
    let svc1 := { svc with lastHeartbeat := now, status := ServiceStatus.healthy }
    match MemoryRepository.Update s svc1 with
    | .error _ => (.internalError, s)
    | .ok s1 => (.okHeartbeat now, s1)

/-- Go strings.HasPrefix over character lists: first argument is the prefix
candidate. -/
def charsHasPref : List Char → List Char → Bool
  | [], _ => true
  | _ :: _, [] => false
  | a :: as, b :: bs => a == b && charsHasPref as bs

/-- Go strings.HasPrefix s pre. -/
def strHasPref (s pre : String) : Bool :=
  charsHasPref pre.data s.data

/-- Go strings.Contains over character lists: does sub occur contiguously? -/
def charsContains (sub : List Char) : List Char → Bool
  | [] => sub.isEmpty
  | c :: rest => charsHasPref sub (c :: rest) || charsContains sub rest

/-- Go strings.Contains s sub. -/
def strContains (s sub : String) : Bool :=
  charsContains sub.data s.data

/-- Go strings.ToLower (ASCII case mapping). -/
def strToLower (s : String) : String :=
  String.mk (s.data.map Char.toLower)

/-- The route filter of ServiceHandler.Search: some route path has the query
as a prefix or equals it. -/
def routeMatches (routeQ : String) (svc : Service) : Bool :=
  (svc.routes.getD []).any fun r => strHasPref r.path routeQ || r.path == routeQ

/-- The name filter of ServiceHandler.Search: case-insensitive substring. -/
def nameMatches (nameQ : String) (svc : Service) : Bool :=
  strContains (strToLower svc.name) (strToLower nameQ)

/-- The tag filter of ServiceHandler.Search: exact membership. -/
def tagMatches (tagQ : String) (svc : Service) : Bool :=
  (svc.tags.getD []).any fun t => t == tagQ

/-- The per-record condition of the Search scan: each filter applies only
when its query parameter is non-empty, and all that apply must hold. -/
def matchesSearch (routeQ nameQ tagQ : String) (svc : Service) : Bool :=
  (routeQ == "" || routeMatches routeQ svc) &&
  (nameQ == "" || nameMatches nameQ svc) &&
  (tagQ == "" || tagMatches tagQ svc)

/-- ServiceHandler.Search: linear scan of GetAll keeping the matches. -/
def searchHandler (s : Store) (routeQ nameQ tagQ : String) : HResp :=
  let results := (MemoryRepository.GetAll s).filter (matchesSearch routeQ nameQ tagQ)
  .okList results results.length

/-- A decoded HTTP response as the client sees it: status code plus the
already-decoded service payload. -/
structure HttpResp where
  status : Nat
  body : Service
deriving DecidableEq, Repr

/-- The client error taxonomy of the servicediscovery package:
ErrConnectionFailed wrapping the last transport error, ErrServiceNotFound,
and the generic error built by parseError from a non-2xx response. -/
inductive ClientError where
  | connectionFailed (msg : String)
  | notFound
  | serverMessage (status : Nat)
deriving DecidableEq, Repr

/-- The retry loop of Client.doRequest, fuel = retries still allowed after
the current attempt i. A response returns immediately; a transport error
either consumes one retry or, when none are left, is wrapped as
ConnectionFailed. -/
def doRequestAux (transport : Nat → Except String HttpResp) :
    Nat → Nat → Except ClientError HttpResp
  | i, 0 =>
    match transport i with
    | .ok r => .ok r
    | .error e => .error (.connectionFailed e)
  | i, fuel + 1 =>
    match transport i with
    | .ok r => .ok r
    | .error _ => doRequestAux transport (i + 1) fuel

/-- Client.doRequest: attempts 0 .. retries. -/
def doRequest (transport : Nat → Except String HttpResp) (retries : Nat) :
    Except ClientError HttpResp :=
  doRequestAux transport 0 retries

/-- Client.Get: a transport-level failure propagates, a 404 response becomes
ErrServiceNotFound, any other non-200 response becomes the parseError value,
and a 200 response yields the decoded service. -/
def clientGet (transport : Nat → Except String HttpResp) (retries : Nat) :
    Except ClientError Service :=
  match doRequest transport retries with
  | .error e => .error e
  | .ok resp =>
    if resp.status = 404 then .error .notFound
    else if resp.status ≠ 200 then .error (.serverMessage resp.status)
    else .ok resp.body

/-- A concrete service record used to instantiate the theorems. -/
def svcSample : Service :=
  { id := "svc-1"
    name := "Test-Service"
    host := "localhost"
    port := 8080
    protocol := "http"
    basePath := ""
    routes := some [{ path := "/users", methods := ["GET", "POST"] }]
    healthCheck := "/health"
    tags := some ["api", "v1"]
    metadata := none
    status := .healthy
    lastHeartbeat := 5
    registeredAt := 5 }

theorem findKey_mem {s : Store} {id : String} {svc : Service}
    (h : findKey s id = some svc) : (id, svc) ∈ s := by
  induction s with
  | nil => simp [findKey] at h
  | cons p rest ih =>
    obtain ⟨k, v⟩ := p
    by_cases hk : k = id
    · subst hk
      simp [findKey] at h
      simp [h]
    · simp only [findKey, if_neg hk] at h
      exact List.mem_cons_of_mem _ (ih h)

theorem findKey_replace_self {s : Store} {i : String} {v : Service} (w : Service)
    (h : findKey s i = some v) :
    findKey (replaceKey i w s) i = some w := by
  induction s with
  | nil => simp [findKey] at h
  | cons p rest ih =>
    obtain ⟨k, u⟩ := p
    by_cases hk : k = i
    · simp [replaceKey, hk, findKey]
    · simp only [findKey, if_neg hk] at h
      simp [replaceKey, hk, findKey, ih h]

theorem findKey_replace_other (s : Store) (i : String) (w : Service) {k : String}
    (hne : k ≠ i) :
    findKey (replaceKey i w s) k = findKey s k := by
  induction s with
  | nil => simp [replaceKey]
  | cons p rest ih =>
    obtain ⟨k1, u⟩ := p
    by_cases h1 : k1 = i
    · simp [replaceKey, h1, findKey, Ne.symm hne, ih]
    · by_cases h2 : k1 = k
      · simp [replaceKey, h1, findKey, h2, hne]
      · simp [replaceKey, h1, findKey, h2, ih]

theorem findKey_remove_self (s : Store) (id : String) :
    findKey (removeKey id s) id = none := by
  induction s with
  | nil => simp [removeKey, findKey]
  | cons p rest ih =>
    obtain ⟨k, v⟩ := p
    by_cases hk : k = id
    · simp [removeKey, hk, ih]
    · simp [removeKey, hk, findKey, ih]

theorem findKey_remove_other (s : Store) (id : String) {k : String}
    (hne : k ≠ id) :
    findKey (removeKey id s) k = findKey s k := by
  induction s with
  | nil => simp [removeKey]
  | cons p rest ih =>
    obtain ⟨k1, v⟩ := p
    by_cases h1 : k1 = id
    · simp [removeKey, h1, findKey, Ne.symm hne, ih]
    · by_cases h2 : k1 = k
      · simp [removeKey, h1, findKey, h2, hne]
      · simp [removeKey, h1, findKey, h2, ih]

theorem findKey_cons_self (s : Store) (id : String) (v : Service) :
    findKey ((id, v) :: s) id = some v := by
  simp [findKey]

theorem findKey_cons_other (s : Store) (id : String) (v : Service) {k : String}
    (hne : k ≠ id) :
    findKey ((id, v) :: s) k = findKey s k := by
  simp [findKey, Ne.symm hne]

/-- C7: Create fails with AlreadyExists exactly when the id is already
present and on failure changes nothing; Update fails with NotFound exactly
when the id is absent and otherwise replaces the stored record wholesale;
Delete fails with NotFound exactly when the id is absent; every success
changes the mapping only at the given id. Failure leaves the store unchanged
by construction: the erring operations return no new store. -/
theorem store_crud_spec (s : Store) (svc : Service) (id : String) :
    (MemoryRepository.Create s svc = .error .alreadyExists ↔ (findKey s svc.id).isSome) ∧
    (findKey s svc.id = none →
      ∃ s1, MemoryRepository.Create s svc = .ok s1 ∧ findKey s1 svc.id = some svc ∧
        ∀ k, k ≠ svc.id → findKey s1 k = findKey s k) ∧
    (MemoryRepository.Update s svc = .error .notFound ↔ findKey s svc.id = none) ∧
    ((findKey s svc.id).isSome →
      ∃ s1, MemoryRepository.Update s svc = .ok s1 ∧ findKey s1 svc.id = some svc ∧
        ∀ k, k ≠ svc.id → findKey s1 k = findKey s k) ∧
    (MemoryRepository.Delete s id = .error .notFound ↔ findKey s id = none) ∧
    ((findKey s id).isSome →
      ∃ s1, MemoryRepository.Delete s id = .ok s1 ∧ findKey s1 id = none ∧
        ∀ k, k ≠ id → findKey s1 k = findKey s k) := by
  refine ⟨?_, ?_, ?_, ?_, ?_, ?_⟩
  · cases hfk : findKey s svc.id <;> simp [MemoryRepository.Create, hfk]
  · intro h
    refine ⟨(svc.id, svc) :: s, ?_, findKey_cons_self s svc.id svc, ?_⟩
    · simp [MemoryRepository.Create, h]
    · intro k hk
      exact findKey_cons_other s svc.id svc hk
  · cases hfk : findKey s svc.id <;> simp [MemoryRepository.Update, hfk]
  · intro h
    obtain ⟨v, hv⟩ := Option.isSome_iff_exists.mp h
    refine ⟨_, ?_, findKey_replace_self svc hv, ?_⟩
    · simp [MemoryRepository.Update, hv]
    · intro k hk
      exact findKey_replace_other s svc.id svc hk
  · cases hfk : findKey s id <;> simp [MemoryRepository.Delete, hfk]
  · intro h
    obtain ⟨v, hv⟩ := Option.isSome_iff_exists.mp h
    refine ⟨_, ?_, findKey_remove_self s id, ?_⟩
    · simp [MemoryRepository.Delete, hv]
    · intro k hk
      exact findKey_remove_other s id hk

/-- Witness for C7: on the singleton store holding svcSample, Delete at the
stored id succeeds, removes the id and leaves every other key unchanged. -/
theorem store_crud_spec_witness :
    ∃ s1, MemoryRepository.Delete [(svcSample.id, svcSample)] "svc-1" = .ok s1 ∧
      findKey s1 "svc-1" = none ∧
      ∀ k, k ≠ "svc-1" → findKey s1 k = findKey [(svcSample.id, svcSample)] k :=
  (store_crud_spec [(svcSample.id, svcSample)] svcSample "svc-1").2.2.2.2.2 (by rfl)

/-- The record ServiceHandler.Register builds for a bound request (lines
48-62 of service_handler.go) with the protocol and healthCheck defaulting
substituted in. -/
def registeredService (req : RegisterServiceRequest) (newId : String)
    (now : Nat) : Service :=
  { id := newId
    name := req.name
    host := req.host
    port := req.port
    protocol := if req.protocol = "" then "http" else req.protocol
    basePath := req.basePath
    routes := req.routes
    healthCheck := if req.healthCheck = "" then "/health" else req.healthCheck
    tags := req.tags
    metadata := req.metadata
    status := .healthy
    lastHeartbeat := now
    registeredAt := now }

/-- A concrete register request used to instantiate the theorems. -/
def reqSample : RegisterServiceRequest :=
  { name := "Test-Service"
    host := "localhost"
    port := 8080
    protocol := ""
    basePath := ""
    routes := none
    healthCheck := ""
    tags := some ["api", "v1"]
    metadata := none }

/-- The same request with the out-of-range port 0. -/
def reqBadPort : RegisterServiceRequest :=
  { reqSample with port := 0 }

/-- C1: a Register request with non-empty name, non-empty host and port in
1..65535, given a freshly generated id not yet in the store, succeeds with
HTTP 201 and returns the created record: its id is the fresh one, protocol
defaults to http and healthCheck to /health when the request left them
empty, status is healthy, and lastHeartbeat equals registeredAt, both set to
the current time. -/
theorem register_valid_creates_record (s : Store) (req : RegisterServiceRequest)
    (newId : String) (now : Nat)
    (hname : req.name ≠ "") (hhost : req.host ≠ "")
    (hmin : 1 ≤ req.port) (hmax : req.port ≤ 65535)
    (hfresh : findKey s newId = none) :
    registerHandler s (some req) newId now =
      (.created (registeredService req newId now),
        (newId, registeredService req newId now) :: s) ∧
    (HResp.created (registeredService req newId now)).code = 201 ∧
    (registeredService req newId now).id = newId ∧
    findKey s newId = none ∧
    findKey ((newId, registeredService req newId now) :: s) newId =
      some (registeredService req newId now) ∧
    (registeredService req newId now).name = req.name ∧
    (registeredService req newId now).host = req.host ∧
    (registeredService req newId now).port = req.port ∧
    (registeredService req newId now).protocol =
      (if req.protocol = "" then "http" else req.protocol) ∧
    (registeredService req newId now).healthCheck =
      (if req.healthCheck = "" then "/health" else req.healthCheck) ∧
    (registeredService req newId now).status = .healthy ∧
    (registeredService req newId now).lastHeartbeat = now ∧
    (registeredService req newId now).registeredAt = now ∧
    (registeredService req newId now).lastHeartbeat =
      (registeredService req newId now).registeredAt := by
  have hb : req.bindOK = true := by
    simp [RegisterServiceRequest.bindOK, hname, hhost, hmin, hmax]
  refine ⟨?_, rfl, rfl, hfresh, findKey_cons_self s newId _, rfl, rfl, rfl,
    rfl, rfl, rfl, rfl, rfl, rfl⟩
  simp [registerHandler, hb, MemoryRepository.Create, registeredService, hfresh]

/-- Witness for C1 on a concrete valid request against the empty store. -/
theorem register_valid_creates_record_witness :
    registerHandler [] (some reqSample) "id-1" 7 =
      (.created (registeredService reqSample "id-1" 7),
        [("id-1", registeredService reqSample "id-1" 7)]) :=
  (register_valid_creates_record [] reqSample "id-1" 7 (by decide) (by decide)
    (by decide) (by decide) rfl).1

/-- C2: a Register request with empty name, empty host, or port outside
1..65535 is rejected by the gin binding with HTTP 400 and the store is
returned unchanged: nothing is created. -/
theorem register_invalid_rejected (s : Store) (req : RegisterServiceRequest)
    (newId : String) (now : Nat)
    (hbad : req.name = "" ∨ req.host = "" ∨ req.port < 1 ∨ 65535 < req.port) :
    registerHandler s (some req) newId now = (.badRequest, s) ∧
    HResp.badRequest.code = 400 := by
  have hb : req.bindOK = false := by
    rcases hbad with h | h | h | h
    · simp [RegisterServiceRequest.bindOK, h]
    · simp [RegisterServiceRequest.bindOK, h]
    · have hp : ¬ (1 ≤ req.port) := by omega
      simp [RegisterServiceRequest.bindOK, hp]
    · have hp : ¬ (req.port ≤ 65535) := by omega
      simp [RegisterServiceRequest.bindOK, hp]
  exact ⟨by simp [registerHandler, hb], rfl⟩

/-- Witness for C2 on a concrete request with port 0. -/
theorem register_invalid_rejected_witness :
    registerHandler [] (some reqBadPort) "id-1" 7 = (.badRequest, []) ∧
    HResp.badRequest.code = 400 :=
  register_invalid_rejected [] reqBadPort "id-1" 7
    (Or.inr (Or.inr (Or.inl (by decide))))

/-- C10: an Update whose id is absent from the store answers HTTP 404 with
the store unchanged, for every body including an unparseable one: the
handler checks existence before it binds the body, so a malformed body at an
unknown id yields 404, never 400. -/
theorem update_absent_id_notFound (s : Store) (id : String)
    (habs : findKey s id = none) (body : Option UpdateServiceRequest) :
    updateHandler s id body = (.notFound, s) ∧ HResp.notFound.code = 404 := by
  refine ⟨?_, rfl⟩
  simp [updateHandler, MemoryRepository.GetByID, habs]

/-- Witness for C10: a malformed body sent to an unknown id on the empty
store yields 404. -/
theorem update_absent_id_notFound_witness :
    updateHandler [] "ghost" none = (.notFound, []) ∧
    HResp.notFound.code = 404 :=
  update_absent_id_notFound [] "ghost" rfl none

theorem mergeUpdate_id (svc : Service) (req : UpdateServiceRequest) :
    (mergeUpdate svc req).id = svc.id := rfl

theorem mergeUpdate_name (svc : Service) (req : UpdateServiceRequest) :
    (mergeUpdate svc req).name = svc.name := rfl

theorem mergeUpdate_status (svc : Service) (req : UpdateServiceRequest) :
    (mergeUpdate svc req).status = svc.status := rfl

theorem mergeUpdate_lastHeartbeat (svc : Service) (req : UpdateServiceRequest) :
    (mergeUpdate svc req).lastHeartbeat = svc.lastHeartbeat := rfl

theorem mergeUpdate_registeredAt (svc : Service) (req : UpdateServiceRequest) :
    (mergeUpdate svc req).registeredAt = svc.registeredAt := rfl

/-- An update request that only supplies a new port. -/
def updSample : UpdateServiceRequest :=
  { host := ""
    port := 5000
    protocol := ""
    basePath := ""
    routes := none
    healthCheck := ""
    tags := none
    metadata := none }

/-- C3: an Update on a stored id merges field by field: each of host, port,
protocol, basePath, routes, healthCheck, tags and metadata takes the
request's value when it is non-zero (non-empty string, non-zero integer,
non-nil collection) and keeps the stored value when it is the zero value;
hence Update can never reset one of these fields to its zero value. Update
on an absent id fails with NotFound. -/
theorem update_merges_nonzero_fields (s : Store) (id : String)
    (req : UpdateServiceRequest) :
    (∀ svc : Service, findKey s id = some svc → svc.id = id →
      req.bindOK = true →
      updateHandler s id (some req) =
        (.okSvc (mergeUpdate svc req), replaceKey id (mergeUpdate svc req) s) ∧
      findKey (replaceKey id (mergeUpdate svc req) s) id =
        some (mergeUpdate svc req) ∧
      (mergeUpdate svc req).host = (if req.host ≠ "" then req.host else svc.host) ∧
      (mergeUpdate svc req).port = (if req.port ≠ 0 then req.port else svc.port) ∧
      (mergeUpdate svc req).protocol =
        (if req.protocol ≠ "" then req.protocol else svc.protocol) ∧
      (mergeUpdate svc req).basePath =
        (if req.basePath ≠ "" then req.basePath else svc.basePath) ∧
      (mergeUpdate svc req).routes =
        (if req.routes ≠ none then req.routes else svc.routes) ∧
      (mergeUpdate svc req).healthCheck =
        (if req.healthCheck ≠ "" then req.healthCheck else svc.healthCheck) ∧
      (mergeUpdate svc req).tags = (if req.tags ≠ none then req.tags else svc.tags) ∧
      (mergeUpdate svc req).metadata =
        (if req.metadata ≠ none then req.metadata else svc.metadata) ∧
      (svc.host ≠ "" → (mergeUpdate svc req).host ≠ "") ∧
      (svc.port ≠ 0 → (mergeUpdate svc req).port ≠ 0) ∧
      (svc.protocol ≠ "" → (mergeUpdate svc req).protocol ≠ "") ∧
      (svc.basePath ≠ "" → (mergeUpdate svc req).basePath ≠ "") ∧
      (svc.routes ≠ none → (mergeUpdate svc req).routes ≠ none) ∧
      (svc.healthCheck ≠ "" → (mergeUpdate svc req).healthCheck ≠ "") ∧
      (svc.tags ≠ none → (mergeUpdate svc req).tags ≠ none) ∧
      (svc.metadata ≠ none → (mergeUpdate svc req).metadata ≠ none)) ∧
    (findKey s id = none →
      ∀ body, updateHandler s id body = (.notFound, s)) := by
  constructor
  · intro svc hfind hid hbind
    subst hid
    have hok : updateHandler s svc.id (some req) =
        (.okSvc (mergeUpdate svc req),
          replaceKey svc.id (mergeUpdate svc req) s) := by
      simp [updateHandler, MemoryRepository.GetByID, hfind, hbind,
        MemoryRepository.Update, mergeUpdate_id]
    refine ⟨hok, findKey_replace_self _ hfind, rfl, rfl, rfl, rfl, rfl, rfl,
      rfl, rfl, ?_, ?_, ?_, ?_, ?_, ?_, ?_, ?_⟩
    · intro h
      by_cases hr : req.host = "" <;> simp [mergeUpdate, hr, h]
    · intro h
      by_cases hr : req.port = 0 <;> simp [mergeUpdate, hr, h]
    · intro h
      by_cases hr : req.protocol = "" <;> simp [mergeUpdate, hr, h]
    · intro h
      by_cases hr : req.basePath = "" <;> simp [mergeUpdate, hr, h]
    · intro h
      by_cases hr : req.routes = none <;> simp [mergeUpdate, hr, h]
    · intro h
      by_cases hr : req.healthCheck = "" <;> simp [mergeUpdate, hr, h]
    · intro h
      by_cases hr : req.tags = none <;> simp [mergeUpdate, hr, h]
    · intro h
      by_cases hr : req.metadata = none <;> simp [mergeUpdate, hr, h]
  · intro habs body
    simp [updateHandler, MemoryRepository.GetByID, habs]

/-- Witness for C3: updating the sample record with only a port answers
with the merged record. -/
theorem update_merges_nonzero_fields_witness :
    updateHandler [("svc-1", svcSample)] "svc-1" (some updSample) =
      (.okSvc (mergeUpdate svcSample updSample),
        replaceKey "svc-1" (mergeUpdate svcSample updSample)
          [("svc-1", svcSample)]) :=
  ((update_merges_nonzero_fields [("svc-1", svcSample)] "svc-1" updSample).1
    svcSample rfl rfl (by decide)).1

/-- C4: a successful Update never changes id, name, status, lastHeartbeat
or registeredAt of the stored record, whatever the request contains. -/
theorem update_preserves_frame_fields (s : Store) (id : String)
    (req : UpdateServiceRequest) (svc : Service)
    (hfind : findKey s id = some svc) (hid : svc.id = id)
    (hbind : req.bindOK = true) :
    updateHandler s id (some req) =
      (.okSvc (mergeUpdate svc req), replaceKey id (mergeUpdate svc req) s) ∧
    findKey (replaceKey id (mergeUpdate svc req) s) id =
      some (mergeUpdate svc req) ∧
    (mergeUpdate svc req).id = svc.id ∧
    (mergeUpdate svc req).name = svc.name ∧
    (mergeUpdate svc req).status = svc.status ∧
    (mergeUpdate svc req).lastHeartbeat = svc.lastHeartbeat ∧
    (mergeUpdate svc req).registeredAt = svc.registeredAt := by
  subst hid
  have hok : updateHandler s svc.id (some req) =
      (.okSvc (mergeUpdate svc req),
        replaceKey svc.id (mergeUpdate svc req) s) := by
    simp [updateHandler, MemoryRepository.GetByID, hfind, hbind,
      MemoryRepository.Update, mergeUpdate_id]
  exact ⟨hok, findKey_replace_self _ hfind, rfl, rfl, rfl, rfl, rfl⟩

/-- Witness for C4 on the sample store and the port-only update. -/
theorem update_preserves_frame_fields_witness :
    updateHandler [("svc-1", svcSample)] "svc-1" (some updSample) =
      (.okSvc (mergeUpdate svcSample updSample),
        replaceKey "svc-1" (mergeUpdate svcSample updSample)
          [("svc-1", svcSample)]) ∧
    findKey (replaceKey "svc-1" (mergeUpdate svcSample updSample)
        [("svc-1", svcSample)]) "svc-1" = some (mergeUpdate svcSample updSample) ∧
    (mergeUpdate svcSample updSample).id = svcSample.id ∧
    (mergeUpdate svcSample updSample).name = svcSample.name ∧
    (mergeUpdate svcSample updSample).status = svcSample.status ∧
    (mergeUpdate svcSample updSample).lastHeartbeat = svcSample.lastHeartbeat ∧
    (mergeUpdate svcSample updSample).registeredAt = svcSample.registeredAt :=
  update_preserves_frame_fields [("svc-1", svcSample)] "svc-1" updSample
    svcSample rfl rfl (by decide)

/-- The record ServiceHandler.Heartbeat persists: the fetched record with
lastHeartbeat set to now and status reset to healthy, everything else kept. -/
def heartbeatService (svc : Service) (now : Nat) : Service :=
  { svc with lastHeartbeat := now, status := ServiceStatus.healthy }

/-- C5: Heartbeat on a stored id sets lastHeartbeat to the current time
(which is at least the previous value whenever the clock did not go back),
resets status to healthy whatever it was, leaves every other field of the
record and every other record unchanged, and acknowledges with the new
timestamp; Heartbeat on an absent id fails with 404 and the store is
unchanged. -/
theorem heartbeat_spec (s : Store) (id : String) (now : Nat) :
    (∀ svc : Service, findKey s id = some svc → svc.id = id →
      heartbeatHandler s id now =
        (.okHeartbeat now, replaceKey id (heartbeatService svc now) s) ∧
      findKey (replaceKey id (heartbeatService svc now) s) id =
        some (heartbeatService svc now) ∧
      (heartbeatService svc now).lastHeartbeat = now ∧
      (heartbeatService svc now).status = .healthy ∧
      (svc.lastHeartbeat ≤ now →
        svc.lastHeartbeat ≤ (heartbeatService svc now).lastHeartbeat) ∧
      (heartbeatService svc now).id = svc.id ∧
      (heartbeatService svc now).name = svc.name ∧
      (heartbeatService svc now).host = svc.host ∧
      (heartbeatService svc now).port = svc.port ∧
      (heartbeatService svc now).protocol = svc.protocol ∧
      (heartbeatService svc now).basePath = svc.basePath ∧
      (heartbeatService svc now).routes = svc.routes ∧
      (heartbeatService svc now).healthCheck = svc.healthCheck ∧
      (heartbeatService svc now).tags = svc.tags ∧
      (heartbeatService svc now).metadata = svc.metadata ∧
      (heartbeatService svc now).registeredAt = svc.registeredAt ∧
      (∀ k, k ≠ id →
        findKey (replaceKey id (heartbeatService svc now) s) k = findKey s k)) ∧
    (findKey s id = none → heartbeatHandler s id now = (.notFound, s)) := by
  constructor
  · intro svc hfind hid
    subst hid
    have hok : heartbeatHandler s svc.id now =
        (.okHeartbeat now, replaceKey svc.id (heartbeatService svc now) s) := by
      simp [heartbeatHandler, MemoryRepository.GetByID, hfind,
        MemoryRepository.Update, heartbeatService]
    refine ⟨hok, findKey_replace_self _ hfind, rfl, rfl, fun h => h, rfl, rfl,
      rfl, rfl, rfl, rfl, rfl, rfl, rfl, rfl, rfl, ?_⟩
    intro k hk
    exact findKey_replace_other s svc.id (heartbeatService svc now) hk
  · intro habs
    simp [heartbeatHandler, MemoryRepository.GetByID, habs]

/-- Witness for C5: a heartbeat at time 9 on the sample record stored under
its id. -/
theorem heartbeat_spec_witness :
    heartbeatHandler [("svc-1", svcSample)] "svc-1" 9 =
      (.okHeartbeat 9,
        replaceKey "svc-1" (heartbeatService svcSample 9) [("svc-1", svcSample)]) ∧
    findKey (replaceKey "svc-1" (heartbeatService svcSample 9)
        [("svc-1", svcSample)]) "svc-1" = some (heartbeatService svcSample 9) ∧
    svcSample.lastHeartbeat ≤ (heartbeatService svcSample 9).lastHeartbeat ∧
    (heartbeatService svcSample 9).status = .healthy := by
  have h := (heartbeat_spec [("svc-1", svcSample)] "svc-1" 9).1 svcSample rfl rfl
  exact ⟨h.1, h.2.1, h.2.2.2.2.1 (by decide), h.2.2.2.1⟩

theorem charsHasPref_iff (p : List Char) :
    ∀ l : List Char, charsHasPref p l = true ↔ p <+: l := by
  induction p with
  | nil =>
    intro l
    simp [charsHasPref]
  | cons a as ih =>
    intro l
    cases l with
    | nil => simp [charsHasPref]
    | cons b bs => simp [charsHasPref, ih, List.cons_prefix_cons]

theorem charsContains_iff (sub : List Char) :
    ∀ l : List Char, charsContains sub l = true ↔ sub <:+: l := by
  intro l
  induction l with
  | nil => simp [charsContains, List.isEmpty_iff]
  | cons c rest ih =>
    simp [charsContains, ih, charsHasPref_iff, List.infix_cons_iff]

theorem routeMatches_iff (routeQ : String) (svc : Service) :
    routeMatches routeQ svc = true ↔
      ∃ r ∈ svc.routes.getD [], routeQ.data <+: r.path.data ∨ r.path = routeQ := by
  simp [routeMatches, strHasPref, List.any_eq_true, charsHasPref_iff]

theorem nameMatches_iff (nameQ : String) (svc : Service) :
    nameMatches nameQ svc = true ↔
      (strToLower nameQ).data <:+: (strToLower svc.name).data := by
  simp [nameMatches, strContains, charsContains_iff]

theorem tagMatches_iff (tagQ : String) (svc : Service) :
    tagMatches tagQ svc = true ↔ tagQ ∈ svc.tags.getD [] := by
  simp [tagMatches, List.any_eq_true]

theorem matchesSearch_iff (routeQ nameQ tagQ : String) (svc : Service) :
    matchesSearch routeQ nameQ tagQ svc = true ↔
      (routeQ ≠ "" → ∃ r ∈ svc.routes.getD [],
        routeQ.data <+: r.path.data ∨ r.path = routeQ) ∧
      (nameQ ≠ "" → (strToLower nameQ).data <:+: (strToLower svc.name).data) ∧
      (tagQ ≠ "" → tagQ ∈ svc.tags.getD []) := by
  simp only [matchesSearch, Bool.and_eq_true, Bool.or_eq_true, beq_iff_eq,
    routeMatches_iff, nameMatches_iff, tagMatches_iff]
  rw [or_iff_not_imp_left, or_iff_not_imp_left, or_iff_not_imp_left, and_assoc]

/-- C6: Search returns exactly the records satisfying the conjunction of
the supplied filters: a route filter asks for some route whose path has the
query as a prefix or equals it, a name filter asks for the lower-cased query
to occur contiguously in the lower-cased name, a tag filter asks for exact
membership in the tag sequence; each filter applies only when its query is
non-empty, the empty filter set returns every record, and the count equals
the number of returned records. -/
theorem search_filters_spec (s : Store) (routeQ nameQ tagQ : String) :
    ∃ results : List Service,
      searchHandler s routeQ nameQ tagQ = .okList results results.length ∧
      (∀ svc : Service, svc ∈ results ↔ svc ∈ MemoryRepository.GetAll s ∧
        ((routeQ ≠ "" → ∃ r ∈ svc.routes.getD [],
          routeQ.data <+: r.path.data ∨ r.path = routeQ) ∧
        (nameQ ≠ "" → (strToLower nameQ).data <:+: (strToLower svc.name).data) ∧
        (tagQ ≠ "" → tagQ ∈ svc.tags.getD []))) ∧
      (routeQ = "" ∧ nameQ = "" ∧ tagQ = "" →
        results = MemoryRepository.GetAll s) := by
  refine ⟨(MemoryRepository.GetAll s).filter (matchesSearch routeQ nameQ tagQ),
    rfl, ?_, ?_⟩
  · intro svc
    rw [List.mem_filter, matchesSearch_iff]
  · rintro ⟨rfl, rfl, rfl⟩
    apply List.filter_eq_self.mpr
    intro a _
    simp [matchesSearch]

theorem doRequestAux_ok (transport : Nat → Except String HttpResp)
    (r : HttpResp) :
    ∀ (k fuel i : Nat), k ≤ fuel →
      (∀ j, j < k → ∃ e, transport (i + j) = .error e) →
      transport (i + k) = .ok r →
      doRequestAux transport i fuel = .ok r := by
  intro k
  induction k with
  | zero =>
    intro fuel i _ _ hok
    rw [Nat.add_zero] at hok
    cases fuel <;> simp [doRequestAux, hok]
  | succ k ih =>
    intro fuel i hk hfail hok
    cases fuel with
    | zero => omega
    | succ f =>
      obtain ⟨e, he⟩ := hfail 0 (Nat.succ_pos k)
      rw [Nat.add_zero] at he
      rw [doRequestAux, he]
      refine ih f (i + 1) (by omega) ?_ ?_
      · intro j hj
        obtain ⟨e1, he1⟩ := hfail (j + 1) (by omega)
        exact ⟨e1, by rwa [show i + (j + 1) = i + 1 + j by omega] at he1⟩
      · rwa [show i + (k + 1) = i + 1 + k by omega] at hok

theorem doRequestAux_allFail (transport : Nat → Except String HttpResp)
    (errs : Nat → String) :
    ∀ (fuel i : Nat),
      (∀ j, i ≤ j → j ≤ i + fuel → transport j = .error (errs j)) →
      doRequestAux transport i fuel =
        .error (.connectionFailed (errs (i + fuel))) := by
  intro fuel
  induction fuel with
  | zero =>
    intro i h
    have hi := h i (Nat.le_refl i) (by omega)
    simp [doRequestAux, hi]
  | succ f ih =>
    intro i h
    have hi := h i (Nat.le_refl i) (by omega)
    rw [doRequestAux, hi]
    have hrec := ih (i + 1) (fun j h1 h2 => h j (by omega) (by omega))
    rwa [show i + 1 + f = i + (f + 1) by omega] at hrec

/-- C8: the client retry loop makes attempts 0..retries; a transport-level
failure consumes one retry, and after the retries are exhausted the last
transport error is wrapped as ConnectionFailed; any HTTP response returns
immediately, so a non-2xx response is never retried and Get translates it
at once: 404 becomes NotFound and any other non-200 status the parseError
value; in particular a transport that fails on its first attempts and then
succeeds within the budget yields the successful response with no error. -/
theorem client_retry_spec (transport : Nat → Except String HttpResp)
    (retries : Nat) :
    (∀ (r : HttpResp) (k : Nat), k ≤ retries →
      (∀ j, j < k → ∃ e, transport j = .error e) →
      transport k = .ok r →
      doRequest transport retries = .ok r) ∧
    (∀ errs : Nat → String,
      (∀ j, j ≤ retries → transport j = .error (errs j)) →
      doRequest transport retries = .error (.connectionFailed (errs retries))) ∧
    (∀ r : HttpResp, doRequest transport retries = .ok r →
      (r.status = 404 → clientGet transport retries = .error .notFound) ∧
      (r.status ≠ 404 → r.status ≠ 200 →
        clientGet transport retries = .error (.serverMessage r.status)) ∧
      (r.status = 200 → clientGet transport retries = .ok r.body)) := by
  refine ⟨?_, ?_, ?_⟩
  · intro r k hk hfail hok
    refine doRequestAux_ok transport r k retries 0 hk ?_ (by simpa using hok)
    intro j hj
    simpa using hfail j hj
  · intro errs h
    have hall := doRequestAux_allFail transport errs retries 0
      (fun j h1 h2 => h j (by omega))
    simpa using hall
  · intro r hok
    refine ⟨?_, ?_, ?_⟩
    · intro h404
      simp [clientGet, hok, h404]
    · intro h404 h200
      simp [clientGet, hok, h404, h200]
    · intro h200
      simp [clientGet, hok, h200]

/-- The successful response used by the retry witness. -/
def respOK : HttpResp :=
  { status := 200, body := svcSample }

/-- A transport that fails on its first two attempts and then succeeds. -/
def transportFlaky : Nat → Except String HttpResp :=
  fun i => if i < 2 then .error "connection refused" else .ok respOK

/-- Witness for C8: the flaky transport, with the default 3 retries, yields
the successful response with no error. -/
theorem client_retry_spec_witness :
    doRequest transportFlaky 3 = .ok respOK :=
  (client_retry_spec transportFlaky 3).1 respOK 2 (by decide)
    (fun j hj => ⟨"connection refused", by simp [transportFlaky, hj]⟩)
    (by simp [transportFlaky])

theorem mem_replaceKey {s : Store} {i : String} {w : Service}
    {q : String × Service} (hq : q ∈ replaceKey i w s) : q = (i, w) ∨ q ∈ s := by
  induction s with
  | nil => simp [replaceKey] at hq
  | cons p rest ih =>
    obtain ⟨k, v⟩ := p
    by_cases hk : k = i
    · simp only [replaceKey, if_pos hk] at hq
      rcases List.mem_cons.mp hq with h1 | h1
      · exact Or.inl h1
      · rcases ih h1 with h2 | h2
        · exact Or.inl h2
        · exact Or.inr (List.mem_cons_of_mem _ h2)
    · simp only [replaceKey, if_neg hk] at hq
      rcases List.mem_cons.mp hq with h1 | h1
      · exact Or.inr (h1 ▸ List.mem_cons_self _ _)
      · rcases ih h1 with h2 | h2
        · exact Or.inl h2
        · exact Or.inr (List.mem_cons_of_mem _ h2)

theorem mem_removeKey {s : Store} {i : String} {q : String × Service}
    (hq : q ∈ removeKey i s) : q ∈ s := by
  induction s with
  | nil => simp [removeKey] at hq
  | cons p rest ih =>
    obtain ⟨k, v⟩ := p
    by_cases hk : k = i
    · simp only [removeKey, if_pos hk] at hq
      exact List.mem_cons_of_mem _ (ih hq)
    · simp only [removeKey, if_neg hk] at hq
      rcases List.mem_cons.mp hq with h1 | h1
      · exact h1 ▸ List.mem_cons_self _ _
      · exact List.mem_cons_of_mem _ (ih h1)

/-- Every record of the store carries status healthy. -/
def AllHealthy (s : Store) : Prop :=
  ∀ p ∈ s, (p.2).status = ServiceStatus.healthy

theorem allHealthy_registerHandler (s : Store)
    (body : Option RegisterServiceRequest) (newId : String) (now : Nat)
    (h : AllHealthy s) : AllHealthy (registerHandler s body newId now).2 := by
  cases body with
  | none => exact h
  | some req =>
    by_cases hb : req.bindOK
    · cases hfk : findKey s newId with
      | some v =>
        have hres : (registerHandler s (some req) newId now).2 = s := by
          simp [registerHandler, hb, MemoryRepository.Create, hfk]
        rw [hres]
        exact h
      | none =>
        have hres : (registerHandler s (some req) newId now).2 =
            (newId, registeredService req newId now) :: s := by
          simp [registerHandler, hb, MemoryRepository.Create, hfk,
            registeredService]
        rw [hres]
        intro q hq
        rcases List.mem_cons.mp hq with h1 | h1
        · rw [h1]
          rfl
        · exact h q h1
    · have hres : (registerHandler s (some req) newId now).2 = s := by
        simp [registerHandler, hb]
      rw [hres]
      exact h

theorem allHealthy_updateHandler (s : Store) (id : String)
    (body : Option UpdateServiceRequest) (h : AllHealthy s) :
    AllHealthy (updateHandler s id body).2 := by
  cases hfk : findKey s id with
  | none =>
    have hres : (updateHandler s id body).2 = s := by
      simp [updateHandler, MemoryRepository.GetByID, hfk]
    rw [hres]
    exact h
  | some svc =>
    cases body with
    | none =>
      have hres : (updateHandler s id none).2 = s := by
        simp [updateHandler, MemoryRepository.GetByID, hfk]
      rw [hres]
      exact h
    | some req =>
      by_cases hb : req.bindOK
      · cases hfk2 : findKey s (mergeUpdate svc req).id with
        | none =>
          have hres : (updateHandler s id (some req)).2 = s := by
            simp [updateHandler, MemoryRepository.GetByID, hfk, hb,
              MemoryRepository.Update, hfk2]
          rw [hres]
          exact h
        | some w =>
          have hres : (updateHandler s id (some req)).2 =
              replaceKey (mergeUpdate svc req).id (mergeUpdate svc req) s := by
            simp [updateHandler, MemoryRepository.GetByID, hfk, hb,
              MemoryRepository.Update, hfk2]
          rw [hres]
          intro q hq
          rcases mem_replaceKey hq with h1 | h1
          · rw [h1]
            have hsvc : svc.status = ServiceStatus.healthy :=
              h (id, svc) (findKey_mem hfk)
            simpa [mergeUpdate_status] using hsvc
          · exact h q h1
      · have hres : (updateHandler s id (some req)).2 = s := by
          simp [updateHandler, MemoryRepository.GetByID, hfk, hb]
        rw [hres]
        exact h

theorem allHealthy_heartbeatHandler (s : Store) (id : String) (now : Nat)
    (h : AllHealthy s) : AllHealthy (heartbeatHandler s id now).2 := by
  cases hfk : findKey s id with
  | none =>
    have hres : (heartbeatHandler s id now).2 = s := by
      simp [heartbeatHandler, MemoryRepository.GetByID, hfk]
    rw [hres]
    exact h
  | some svc =>
    cases hfk2 : findKey s (heartbeatService svc now).id with
    | none =>
      have hres : (heartbeatHandler s id now).2 = s := by
        simp [heartbeatHandler, MemoryRepository.GetByID, hfk,
          MemoryRepository.Update, heartbeatService] at hfk2 ⊢
        simp [hfk2]
      rw [hres]
      exact h
    | some w =>
      have hres : (heartbeatHandler s id now).2 =
          replaceKey (heartbeatService svc now).id (heartbeatService svc now) s := by
        simp [heartbeatHandler, MemoryRepository.GetByID, hfk,
          MemoryRepository.Update, heartbeatService] at hfk2 ⊢
        simp [hfk2]
      rw [hres]
      intro q hq
      rcases mem_replaceKey hq with h1 | h1
      · rw [h1]
        rfl
      · exact h q h1

theorem allHealthy_unregisterHandler (s : Store) (id : String)
    (h : AllHealthy s) : AllHealthy (unregisterHandler s id).2 := by
  cases hfk : findKey s id with
  | none =>
    have hres : (unregisterHandler s id).2 = s := by
      simp [unregisterHandler, MemoryRepository.GetByID, hfk]
    rw [hres]
    exact h
  | some svc =>
    have hres : (unregisterHandler s id).2 = removeKey id s := by
      simp [unregisterHandler, MemoryRepository.GetByID, hfk,
        MemoryRepository.Delete]
    rw [hres]
    intro q hq
    exact h q (mem_removeKey hq)

/-- Every repository state reachable from the empty store created by
NewMemoryRepository through the HTTP handlers. Get, List and Search read
the store without returning a new one, so only the four mutating handlers
appear as steps. -/
inductive Reachable : Store → Prop where
  | init : Reachable []
  | register (s : Store) (body : Option RegisterServiceRequest)
      (newId : String) (now : Nat) :
      Reachable s → Reachable (registerHandler s body newId now).2
  | update (s : Store) (id : String) (body : Option UpdateServiceRequest) :
      Reachable s → Reachable (updateHandler s id body).2
  | heartbeat (s : Store) (id : String) (now : Nat) :
      Reachable s → Reachable (heartbeatHandler s id now).2
  | unregister (s : Store) (id : String) :
      Reachable s → Reachable (unregisterHandler s id).2

theorem reachable_allHealthy {s : Store} (h : Reachable s) : AllHealthy s := by
  induction h with
  | init => intro q hq; simp at hq
  | register s body newId now _ ih =>
    exact allHealthy_registerHandler s body newId now ih
  | update s id body _ ih =>
    exact allHealthy_updateHandler s id body ih
  | heartbeat s id now _ ih =>
    exact allHealthy_heartbeatHandler s id now ih
  | unregister s id _ ih =>
    exact allHealthy_unregisterHandler s id ih

/-- C9: in every store reachable by any sequence of handler operations,
every stored record has status healthy: Register creates records healthy,
Heartbeat resets the status to healthy, and no operation ever writes
unhealthy. -/
theorem registry_invariant_all_healthy (s : Store) (h : Reachable s)
    (id : String) (svc : Service) (hfind : findKey s id = some svc) :
    svc.status = .healthy :=
  reachable_allHealthy h (id, svc) (findKey_mem hfind)

/-- Witness for C9: the record created by one Register on the empty store
is stored healthy. -/
theorem registry_invariant_all_healthy_witness :
    (registeredService reqSample "id-1" 7).status = .healthy :=
  registry_invariant_all_healthy (registerHandler [] (some reqSample) "id-1" 7).2
    (Reachable.register [] (some reqSample) "id-1" 7 Reachable.init)
    "id-1" (registeredService reqSample "id-1" 7) (by rfl)

/-- Witness for C6: on a singleton store, the empty filter set returns the
whole record list with its count. -/
theorem search_filters_spec_witness :
    searchHandler [("svc-1", svcSample)] "" "" "" =
      .okList (MemoryRepository.GetAll [("svc-1", svcSample)])
        (MemoryRepository.GetAll [("svc-1", svcSample)]).length := by
  obtain ⟨results, h1, _, h3⟩ := search_filters_spec [("svc-1", svcSample)] "" "" ""
  rw [h3 ⟨rfl, rfl, rfl⟩] at h1
  exact h1

/-- Every entry of the store is keyed by its record's own id. The handlers
maintain this: Register inserts under the generated id and Update and
Heartbeat re-store under the record's unchanged id, which justifies reading
the stored record's id off its key in the update and heartbeat theorems. -/
def WellFormedStore (s : Store) : Prop :=
  ∀ p ∈ s, (p.2).id = p.1

theorem wellFormed_replaceKey {s : Store} {i : String} {w : Service}
    (hw : w.id = i) (h : WellFormedStore s) :
    WellFormedStore (replaceKey i w s) := by
  intro q hq
  rcases mem_replaceKey hq with h1 | h1
  · rw [h1]
    exact hw
  · exact h q h1

theorem wellFormed_removeKey {s : Store} {i : String}
    (h : WellFormedStore s) : WellFormedStore (removeKey i s) := by
  intro q hq
  exact h q (mem_removeKey hq)

theorem reachable_wellFormed {s : Store} (h : Reachable s) :
    WellFormedStore s := by
  induction h with
  | init => intro q hq; simp at hq
  | register s body newId now _ ih =>
    cases body with
    | none => exact ih
    | some req =>
      by_cases hb : req.bindOK
      · cases hfk : findKey s newId with
        | some v =>
          have hres : (registerHandler s (some req) newId now).2 = s := by
            simp [registerHandler, hb, MemoryRepository.Create, hfk]
          rw [hres]
          exact ih
        | none =>
          have hres : (registerHandler s (some req) newId now).2 =
              (newId, registeredService req newId now) :: s := by
            simp [registerHandler, hb, MemoryRepository.Create, hfk,
              registeredService]
          rw [hres]
          intro q hq
          rcases List.mem_cons.mp hq with h1 | h1
          · rw [h1]
            rfl
          · exact ih q h1
      · have hres : (registerHandler s (some req) newId now).2 = s := by
          simp [registerHandler, hb]
        rw [hres]
        exact ih
  | update s id body _ ih =>
    cases hfk : findKey s id with
    | none =>
      have hres : (updateHandler s id body).2 = s := by
        simp [updateHandler, MemoryRepository.GetByID, hfk]
      rw [hres]
      exact ih
    | some svc =>
      cases body with
      | none =>
        have hres : (updateHandler s id none).2 = s := by
          simp [updateHandler, MemoryRepository.GetByID, hfk]
        rw [hres]
        exact ih
      | some req =>
        by_cases hb : req.bindOK
        · cases hfk2 : findKey s (mergeUpdate svc req).id with
          | none =>
            have hres : (updateHandler s id (some req)).2 = s := by
              simp [updateHandler, MemoryRepository.GetByID, hfk, hb,
                MemoryRepository.Update, hfk2]
            rw [hres]
            exact ih
          | some w =>
            have hres : (updateHandler s id (some req)).2 =
                replaceKey (mergeUpdate svc req).id (mergeUpdate svc req) s := by
              simp [updateHandler, MemoryRepository.GetByID, hfk, hb,
                MemoryRepository.Update, hfk2]
            rw [hres]
            exact wellFormed_replaceKey rfl ih
        · have hres : (updateHandler s id (some req)).2 = s := by
            simp [updateHandler, MemoryRepository.GetByID, hfk, hb]
          rw [hres]
          exact ih
  | heartbeat s id now _ ih =>
    cases hfk : findKey s id with
    | none =>
      have hres : (heartbeatHandler s id now).2 = s := by
        simp [heartbeatHandler, MemoryRepository.GetByID, hfk]
      rw [hres]
      exact ih
    | some svc =>
      cases hfk2 : findKey s (heartbeatService svc now).id with
      | none =>
        have hres : (heartbeatHandler s id now).2 = s := by
          simp [heartbeatHandler, MemoryRepository.GetByID, hfk,
            MemoryRepository.Update, heartbeatService] at hfk2 ⊢
          simp [hfk2]
        rw [hres]
        exact ih
      | some w =>
        have hres : (heartbeatHandler s id now).2 =
            replaceKey (heartbeatService svc now).id (heartbeatService svc now) s := by
          simp [heartbeatHandler, MemoryRepository.GetByID, hfk,
            MemoryRepository.Update, heartbeatService] at hfk2 ⊢
          simp [hfk2]
        rw [hres]
        exact wellFormed_replaceKey rfl ih
  | unregister s id _ ih =>
    cases hfk : findKey s id with
    | none =>
      have hres : (unregisterHandler s id).2 = s := by
        simp [unregisterHandler, MemoryRepository.GetByID, hfk]
      rw [hres]
      exact ih
    | some svc =>
      have hres : (unregisterHandler s id).2 = removeKey id s := by
        simp [unregisterHandler, MemoryRepository.GetByID, hfk,
          MemoryRepository.Delete]
      rw [hres]
      exact wellFormed_removeKey ih

theorem reachable_findKey_id {s : Store} (h : Reachable s) {id : String}
    {svc : Service} (hfind : findKey s id = some svc) : svc.id = id :=
  reachable_wellFormed h (id, svc) (findKey_mem hfind)

end ServiceDiscovery
